import Mathlib

/-!
Verification development for the wireguard-overlay client.

The Go sources embedded here are `internal/wg` (the wireguard state type, the
overlay-address derivation, peer-config translation and the interface
lifecycle methods) and `cmd/client/client.go` (the reconciliation step
`updatePeers`).  External collaborators (the wgctrl control-plane client, the
netlink link layer, the HTTP directory fetch and the curve25519 key
derivation of the wgtypes library) are modelled as explicit environments: a
record of the results those calls return, passed to each operation.  Byte
strings are `List Nat` with each entry a byte value; Go's `nil` slices and
`nil` pointers are modelled as `[]` and `Option`.
-/

/-! ### SHA-256 (crypto/sha256), used by `getOverlayAddr` -/

/-- A byte string: each entry is one byte value. -/
abbrev Bytes := List Nat

/-- A wgtypes.Key: 32 raw bytes. -/
abbrev Key := Bytes

/-- Addition of 32-bit words. -/
def add32 (a b : Nat) : Nat := (a + b) % 4294967296

/-- Rotate a 32-bit word right by `n` places. -/
def rotr32 (n x : Nat) : Nat := (x >>> n) ||| ((x <<< (32 - n)) % 4294967296)

/-- The SHA-256 choose function; the complement is taken inside 32 bits. -/
def shaCh (x y z : Nat) : Nat := (x &&& y) ^^^ ((x ^^^ 4294967295) &&& z)

/-- The SHA-256 majority function. -/
def shaMaj (x y z : Nat) : Nat := (x &&& y) ^^^ (x &&& z) ^^^ (y &&& z)

/-- The Sigma-0 mixing function of the SHA-256 rounds. -/
def sigBig0 (x : Nat) : Nat := rotr32 2 x ^^^ rotr32 13 x ^^^ rotr32 22 x

/-- The Sigma-1 mixing function of the SHA-256 rounds. -/
def sigBig1 (x : Nat) : Nat := rotr32 6 x ^^^ rotr32 11 x ^^^ rotr32 25 x

/-- The sigma-0 function of the SHA-256 message schedule. -/
def sigSmall0 (x : Nat) : Nat := rotr32 7 x ^^^ rotr32 18 x ^^^ (x >>> 3)

/-- The sigma-1 function of the SHA-256 message schedule. -/
def sigSmall1 (x : Nat) : Nat := rotr32 17 x ^^^ rotr32 19 x ^^^ (x >>> 10)

/-- The 64 round constants of SHA-256 (FIPS 180-4), written in decimal. -/
def sha256K : List Nat :=
  [1116352408, 1899447441, 3049323471, 3921009573, 961987163, 1508970993,
   2453635748, 2870763221, 3624381080, 310598401, 607225278, 1426881987,
   1925078388, 2162078206, 2614888103, 3248222580, 3835390401, 4022224774,
   264347078, 604807628, 770255983, 1249150122, 1555081692, 1996064986,
   2554220882, 2821834349, 2952996808, 3210313671, 3336571891, 3584528711,
   113926993, 338241895, 666307205, 773529912, 1294757372, 1396182291,
   1695183700, 1986661051, 2177026350, 2456956037, 2730485921, 2820302411,
   3259730800, 3345764771, 3516065817, 3600352804, 4094571909, 275423344,
   430227734, 506948616, 659060556, 883997877, 958139571, 1322822218,
   1537002063, 1747873779, 1955562222, 2024104815, 2227730452, 2361852424,
   2428436474, 2756734187, 3204031479, 3329325298]

/-- The eight 32-bit state words of the SHA-256 compression function. -/
structure Hash8 where
  a : Nat
  b : Nat
  c : Nat
  d : Nat
  e : Nat
  f : Nat
  g : Nat
  h : Nat
deriving DecidableEq, Repr

/-- The initial hash state of SHA-256 (FIPS 180-4), written in decimal. -/
def sha256Init : Hash8 :=
  ⟨1779033703, 3144134277, 1013904242, 2773480762,
   1359893119, 2600822924, 528734635, 1541459225⟩

/-- Extend a 16-word block to a 64-word message schedule. -/
def scheduleW (block : List Nat) : List Nat :=
  (List.range 48).foldl
    (fun w _ =>
      let t := w.length
      w ++ [add32 (add32 (sigSmall1 (w.getD (t - 2) 0)) (w.getD (t - 7) 0))
                  (add32 (sigSmall0 (w.getD (t - 15) 0)) (w.getD (t - 16) 0))])
    block

/-- One SHA-256 round, consuming one (constant, schedule word) pair. -/
def sha256Round (s : Hash8) (kw : Nat × Nat) : Hash8 :=
  let t1 := add32 s.h (add32 (sigBig1 s.e) (add32 (shaCh s.e s.f s.g) (add32 kw.1 kw.2)))
  let t2 := add32 (sigBig0 s.a) (shaMaj s.a s.b s.c)
  ⟨add32 t1 t2, s.a, s.b, s.c, add32 s.d t1, s.e, s.f, s.g⟩

/-- Compress one 16-word block into the running hash state. -/
def compressBlock (H : Hash8) (block : List Nat) : Hash8 :=
  let s := (sha256K.zip (scheduleW block)).foldl sha256Round H
  ⟨add32 H.a s.a, add32 H.b s.b, add32 H.c s.c, add32 H.d s.d,
   add32 H.e s.e, add32 H.f s.f, add32 H.g s.g, add32 H.h s.h⟩

/-- Iterate the compression over successive 16-word blocks (`n` = block count). -/
def sha256Blocks (H : Hash8) (ws : List Nat) : Nat → Hash8
  | 0 => H
  | n + 1 => sha256Blocks (compressBlock H (ws.take 16)) (ws.drop 16) n

/-- Big-endian 64-bit length field of the SHA-256 padding. -/
def lenBytes64 (n : Nat) : Bytes :=
  [n / 2 ^ 56 % 256, n / 2 ^ 48 % 256, n / 2 ^ 40 % 256, n / 2 ^ 32 % 256,
   n / 2 ^ 24 % 256, n / 2 ^ 16 % 256, n / 2 ^ 8 % 256, n % 256]

/-- SHA-256 padding: 0x80, zeros to 56 mod 64, then the bit length. -/
def sha256Pad (msg : Bytes) : Bytes :=
  msg ++ 128 :: List.replicate ((119 - msg.length % 64) % 64) 0 ++ lenBytes64 (8 * msg.length)

/-- Group bytes into big-endian 32-bit words. -/
def bytesToWords : Bytes → List Nat
  | b0 :: b1 :: b2 :: b3 :: rest => (((b0 * 256 + b1) * 256 + b2) * 256 + b3) :: bytesToWords rest
  | _ => []

/-- Big-endian bytes of a 32-bit word. -/
def word2bytes (w : Nat) : Bytes := [w / 2 ^ 24 % 256, w / 2 ^ 16 % 256, w / 2 ^ 8 % 256, w % 256]

/-- SHA-256 of a byte string, as its 32 digest bytes. -/
def sha256 (msg : Bytes) : Bytes :=
  let ws := bytesToWords (sha256Pad msg)
  let s := sha256Blocks sha256Init ws (ws.length / 16)
  word2bytes s.a ++ word2bytes s.b ++ word2bytes s.c ++ word2bytes s.d ++
  word2bytes s.e ++ word2bytes s.f ++ word2bytes s.g ++ word2bytes s.h

/-! ### The `net` package pieces the source uses: IP masks and `net.ParseIP`.
Go's `nil` byte slice is modelled as `[]`. -/

/-- Number of leading one bits of a canonical mask byte (Go's shift loop in
`simpleMaskLength`, tabulated over the nine canonical byte values). -/
def leadingOnes8 (b : Nat) : Option Nat :=
  if b = 0 then some 0
  else if b = 128 then some 1
  else if b = 192 then some 2
  else if b = 224 then some 3
  else if b = 240 then some 4
  else if b = 248 then some 5
  else if b = 252 then some 6
  else if b = 254 then some 7
  else if b = 255 then some 8
  else none

/-- Go `net.simpleMaskLength`: leading one-bit count of a canonical
ones-then-zeros mask, `none` (Go: -1) otherwise. -/
def simpleMaskLength : Bytes → Option Nat
  | [] => some 0
  | b :: rest =>
    if b = 255 then (simpleMaskLength rest).map (fun n => n + 8)
    else
      match leadingOnes8 b with
      | none => none
      | some k => if rest.all (fun x => x == 0) then some k else none

/-- Go `net.IPMask.Size`: (ones, total bits), or (0, 0) for a non-canonical
mask. -/
def maskSize (m : Bytes) : Nat × Nat :=
  match simpleMaskLength m with
  | none => (0, 0)
  | some ones => (ones, 8 * m.length)

/-- The partial mask byte `^byte(0xff >> n)` of Go `net.CIDRMask`. -/
def maskByteOnes (n : Nat) : Nat := 255 - 255 / 2 ^ n

/-- The byte-filling loop of Go `net.CIDRMask`: `n` remaining one bits over a
given number of bytes. -/
def cidrMaskLoop (n : Nat) : Nat → Bytes
  | 0 => []
  | l + 1 => if 8 ≤ n then 255 :: cidrMaskLoop (n - 8) l else maskByteOnes n :: cidrMaskLoop 0 l

/-- Go `net.CIDRMask ones bits` (`ones : Nat` models the non-negative case;
Go's nil result is `[]`). -/
def cidrMask (ones bits : Nat) : Bytes :=
  if bits ≠ 32 ∧ bits ≠ 128 then []
  else if bits < ones then []
  else cidrMaskLoop ones (bits / 8)

/-- Go `net.dtoi` digit loop: current chars, accumulator, index; yields
(value, chars consumed, ok). -/
def dtoiAux : List Char → Nat → Nat → Nat × Nat × Bool
  | [], n, i => if i = 0 then (0, 0, false) else (n, i, true)
  | c :: rest, n, i =>
    if '0' ≤ c ∧ c ≤ '9' then
      let n2 := n * 10 + (c.toNat - '0'.toNat)
      if 16777215 ≤ n2 then (16777215, i, false) else dtoiAux rest n2 (i + 1)
    else if i = 0 then (0, 0, false)
    else (n, i, true)

/-- Go `net.dtoi`: decimal number from the front of a string. -/
def dtoi (s : List Char) : Nat × Nat × Bool := dtoiAux s 0 0

/-- Value of a hex digit character, if it is one (Go `net.xtoi` cases). -/
def hexDigitVal (c : Char) : Option Nat :=
  if '0' ≤ c ∧ c ≤ '9' then some (c.toNat - '0'.toNat)
  else if 'a' ≤ c ∧ c ≤ 'f' then some (c.toNat - 'a'.toNat + 10)
  else if 'A' ≤ c ∧ c ≤ 'F' then some (c.toNat - 'A'.toNat + 10)
  else none

/-- Go `net.xtoi` hex loop. -/
def xtoiAux : List Char → Nat → Nat → Nat × Nat × Bool
  | [], n, i => if i = 0 then (0, 0, false) else (n, i, true)
  | c :: rest, n, i =>
    match hexDigitVal c with
    | none => if i = 0 then (0, 0, false) else (n, i, true)
    | some d =>
      let n2 := n * 16 + d
      if 16777215 ≤ n2 then (0, i, false) else xtoiAux rest n2 (i + 1)

/-- Go `net.xtoi`: hex number from the front of a string. -/
def xtoi (s : List Char) : Nat × Nat × Bool := xtoiAux s 0 0

/-- The field loop of Go `net.parseIPv4`: remaining fields, whether this is
the first field (no dot before it); yields the four raw field bytes. -/
def parseIPv4Go (s : List Char) (k : Nat) (first : Bool) : Option Bytes :=
  match k with
  | 0 => if s.isEmpty then some [] else none
  | k + 1 =>
    if s.isEmpty then none
    else
      let s1opt : Option (List Char) :=
        if first then some s
        else
          match s with
          | '.' :: r => some r
          | _ => none
      match s1opt with
      | none => none
      | some s1 =>
        let nco := dtoi s1
        if nco.2.2 = false ∨ 255 < nco.1 then none
        else if 1 < nco.2.1 ∧ s1.headD ' ' = '0' then none
        else
          match parseIPv4Go (s1.drop nco.2.1) k false with
          | none => none
          | some rest => some (nco.1 :: rest)

/-- Go `net.IPv4`: a 4-byte address in its 16-byte IPv4-in-IPv6 form. -/
def ipv4In6 (p : Bytes) : Bytes := [0, 0, 0, 0, 0, 0, 0, 0, 0, 0, 255, 255] ++ p

/-- Go `net.parseIPv4` (with the modern leading-zero rejection): dotted
decimal to the 16-byte address form. -/
def parseIPv4 (s : List Char) : Option Bytes :=
  (parseIPv4Go s 4 true).map ipv4In6

/-- Outcome of the `parseV6` group loop: failure, an early `return ip`, or
loop exit with the state (ip, i, ellipsis, rest of string). -/
inductive V6Step where
  | fail
  | retIp (ip : Bytes)
  | finish (ip : Bytes) (i : Nat) (ell : Option Nat) (s : List Char)

/-- The group loop of Go `net.parseV6`; `fuel` bounds the iterations (each
iteration advances `i` by at least 2, so 8 suffices). -/
def parseV6Go (fuel : Nat) (s : List Char) (ip : Bytes) (i : Nat) (ell : Option Nat) : V6Step :=
  match fuel with
  | 0 => .finish ip i ell s
  | fuel + 1 =>
    if 16 ≤ i then .finish ip i ell s
    else
      let nco := xtoi s
      if nco.2.2 = false ∨ 65535 < nco.1 then .fail
      else if nco.2.1 < s.length ∧ s.getD nco.2.1 ' ' = '.' then
        if ell.isNone ∧ i ≠ 12 then .fail
        else if 16 < i + 4 then .fail
        else
          match parseIPv4Go s 4 true with
          | none => .fail
          | some p4 =>
            .finish ((((ip.set i (p4.getD 0 0)).set (i + 1) (p4.getD 1 0)).set (i + 2)
              (p4.getD 2 0)).set (i + 3) (p4.getD 3 0)) (i + 4) ell []
      else
        let ip2 := (ip.set i (nco.1 / 256)).set (i + 1) (nco.1 % 256)
        let s2 := s.drop nco.2.1
        if s2.isEmpty then .finish ip2 (i + 2) ell s2
        else if s2.headD ' ' ≠ ':' ∨ s2.length = 1 then .fail
        else
          let s3 := s2.drop 1
          if s3.headD ' ' = ':' then
            if ell.isSome then .fail
            else
              let s4 := s3.drop 1
              if s4.isEmpty then .retIp ip2
              else parseV6Go fuel s4 ip2 (i + 2) (some (i + 2))
          else parseV6Go fuel s3 ip2 (i + 2) ell

/-- The ellipsis expansion at the end of Go `net.parseV6`: shift the groups
parsed after the ellipsis to the end and zero-fill the gap. -/
def expandEllipsis (ip : Bytes) (i ell : Nat) : Bytes :=
  let n := 16 - i
  (List.range 16).map (fun j =>
    if ell + n ≤ j then ip.getD (j - n) 0
    else if ell ≤ j then 0
    else ip.getD j 0)

/-- The post-loop checks of Go `net.parseV6`. -/
def finishV6 : V6Step → Option Bytes
  | .fail => none
  | .retIp ip => some ip
  | .finish ip i ell s =>
    if s.isEmpty = false then none
    else if i < 16 then
      match ell with
      | none => none
      | some e => some (expandEllipsis ip i e)
    else
      match ell with
      | some _ => none
      | none => some ip

/-- Go `net.parseV6` (zone handling not modelled: no claim involves zones). -/
def parseV6 (s : List Char) : Option Bytes :=
  match s with
  | ':' :: ':' :: rest =>
    if rest.isEmpty then some (List.replicate 16 0)
    else finishV6 (parseV6Go 8 rest (List.replicate 16 0) 0 (some 0))
  | _ => finishV6 (parseV6Go 8 s (List.replicate 16 0) 0 none)

/-- The dispatch scan of Go `net.ParseIP`: the first '.' or ':' decides the
format; no such character means not an IP. -/
def parseIPScan (s : List Char) : List Char → Option Bytes
  | [] => none
  | c :: rest => if c = '.' then parseIPv4 s else if c = ':' then parseV6 s else parseIPScan s rest

/-- Go `net.ParseIP`: `none` models the `nil` result for an unparseable
string. -/
def parseIP (s : String) : Option Bytes := parseIPScan s.data s.data

/-! ### The `internal/wg` package -/

/-- Go `net.IPNet`: an address and a mask, each a byte string. -/
structure IPNet where
  ip : Bytes
  mask : Bytes
deriving DecidableEq, Repr

/-- A Go error as the source observes it: `os.IsNotExist` and (for the
wrapped messages of github.com/pkg/errors) a message. -/
structure GoError where
  isNotExist : Bool := false
  msg : String := ""
deriving DecidableEq, Repr

/-- Model of `errors.Wrap`/`errors.Wrapf`: the wrapped error carries the new message;
`os.IsNotExist` does not see through a pkg/errors wrapper. -/
def wrapError (e : GoError) (m : String) : GoError :=
  { isNotExist := false, msg := m ++ ": " ++ e.msg }

/-- Go `net.UDPAddr` as used for peer endpoints (`IP = none` models a nil
IP slice, `Port` a Go int). -/
structure UDPAddr where
  IP : Option Bytes
  Port : Int
deriving DecidableEq, Repr

/-- The `wg.Peer` record of the source (KeepaliveInterval is a
time.Duration, modelled as its integer value). -/
structure Peer where
  IP : String
  Port : Int
  PublicKey : Key
  PresharedKey : Key
  KeepaliveInterval : Int
deriving DecidableEq, Repr

/-- Model of `wgtypes.PeerConfig`; field defaults are the Go zero values, `Option`
models the nil-able pointer fields. -/
structure PeerConfig where
  PublicKey : Key
  Remove : Bool := false
  PresharedKey : Option Key := none
  Endpoint : Option UDPAddr := none
  PersistentKeepaliveInterval : Option Int := none
  ReplaceAllowedIPs : Bool := false
  AllowedIPs : List IPNet := []
deriving DecidableEq, Repr

/-- Model of `wgtypes.Config`; field defaults are the Go zero values. -/
structure Config where
  PrivateKey : Option Key := none
  ListenPort : Option Int := none
  ReplacePeers : Bool := false
  Peers : List PeerConfig := []
deriving DecidableEq, Repr

/-- The byte-overwriting loop of `getOverlayAddr`: for i in 1..count,
`ip[len(ip)-i] = hb[len(hb)-i]`. -/
def copyHashTail (ip hb : Bytes) : Nat → Bytes
  | 0 => ip
  | i + 1 => (copyHashTail ip hb i).set (ip.length - (i + 1)) (hb.getD (hb.length - (i + 1)) 0)

/-- Source `getOverlayAddr`: hash the public key and overwrite the trailing
`(size-bits)/8` host bytes of the network's base address; mask forced to
`CIDRMask(size, size)`. -/
def getOverlayAddr (ipnet : IPNet) (pubkey : Key) : IPNet :=
  let bs := maskSize ipnet.mask
  let hb := sha256 pubkey
  { ip := copyHashTail ipnet.ip hb ((bs.2 - bs.1) / 8),
    mask := cidrMask bs.2 bs.2 }

/-- Source `Peer.toPeerConfig` (the spec calls it `toControlUpdate`):
identity and derived allowed IP always; preshared key always (a pointer to
the record's key); endpoint only when port and address are both present;
keepalive only when nonzero. -/
def Peer.toPeerConfig (p : Peer) (overlayNet : IPNet) : PeerConfig :=
  let config : PeerConfig :=
    { PublicKey := p.PublicKey,
      AllowedIPs := [getOverlayAddr overlayNet p.PublicKey],
      PresharedKey := some p.PresharedKey }
  let config :=
    if p.Port ≠ 0 ∧ p.IP ≠ "" then
      { config with Endpoint := some { IP := parseIP p.IP, Port := p.Port } }
    else config
  if p.KeepaliveInterval ≠ 0 then
    { config with PersistentKeepaliveInterval := some p.KeepaliveInterval }
  else config

/-- The source `State` struct.  The `client` handle is not a field here: the
control-plane and netlink collaborators are modelled as per-call
environments. -/
structure State where
  iface : String
  OverlayNetwork : IPNet
  OverlayAddr : IPNet
  port : Int
  privateKey : Key
  PublicKey : Key
deriving DecidableEq, Repr

/-- Environment of `New`: the results of the two fallible external calls. -/
structure NewEnv where
  wgctrlNew : Except GoError Unit
  keyOfString : Except GoError Key
deriving Repr

/-- Source `New`.  `publicKeyOf` stands for `wgtypes.Key.PublicKey`, the
curve25519 base-point multiplication of the external wgtypes library;
`env.keyOfString` is the result of `wgtypes.ParseKey privKey`. -/
def New (publicKeyOf : Key → Key) (env : NewEnv) (iface : String) (port : Int)
    (overlayNet : IPNet) : Except GoError State :=
  match env.wgctrlNew with
  | .error e => .error (wrapError e ("Could not instantiate wireguard client"))
  | .ok _ =>
    match env.keyOfString with
    | .error e => .error (wrapError e ("Could not parse private key"))
    | .ok privateKey =>
      let pubKey := publicKeyOf privateKey
      .ok { iface := iface, privateKey := privateKey, PublicKey := pubKey,
            OverlayNetwork := overlayNet, OverlayAddr := getOverlayAddr overlayNet pubKey,
            port := port }

/-- Source `State.GetOverlayAddress`. -/
def State.GetOverlayAddress (s : State) (pubkey : Key) : IPNet :=
  getOverlayAddr s.OverlayNetwork pubkey

/-- A netlink link handle. -/
structure Link where
  index : Int
deriving DecidableEq, Repr

/-- Environment of `DownInterface`: results of the device query, the link
lookup and the link deletion. -/
structure DownEnv where
  device : Except GoError Unit
  linkByName : Except GoError Link
  linkDel : Except GoError Unit
deriving Repr

/-- The control-plane/netlink calls an operation issues, in order. -/
inductive NetAction where
  | queryDevice (iface : String)
  | linkByName (iface : String)
  | linkDel (l : Link)
deriving DecidableEq, Repr

/-- Source `State.DownInterface`, with the list of calls it issues: a device
query error satisfying `os.IsNotExist` is success without any deletion. -/
def State.DownInterface (s : State) (env : DownEnv) : Except GoError Unit × List NetAction :=
  match env.device with
  | .error e =>
    if e.isNotExist then (.ok (), [.queryDevice s.iface])
    else (.error e, [.queryDevice s.iface])
  | .ok _ =>
    match env.linkByName with
    | .error e => (.error e, [.queryDevice s.iface, .linkByName s.iface])
    | .ok link => (env.linkDel, [.queryDevice s.iface, .linkByName s.iface, .linkDel link])

/-- The peer-config accumulation loop of `State.AddPeers`: every peer whose
public key differs from the local one, in order. -/
def addPeersLoop (s : State) : List Peer → List PeerConfig
  | [] => []
  | p :: rest =>
    if p.PublicKey ≠ s.PublicKey then p.toPeerConfig s.OverlayNetwork :: addPeersLoop s rest
    else addPeersLoop s rest

/-- The `wgtypes.Config` value `State.AddPeers` submits to
`client.ConfigureDevice`: only the `Peers` field is set, every other field
keeps its Go zero value. -/
def State.addPeersConfig (s : State) (peers : List Peer) : Config :=
  { Peers := addPeersLoop s peers }

/-- Source `State.AddPeers`; `configureDevice` is the control-plane
collaborator receiving the submitted configuration. -/
def State.AddPeers (s : State) (configureDevice : Config → Except GoError Unit)
    (peers : List Peer) : Except GoError Unit :=
  match configureDevice (s.addPeersConfig peers) with
  | .error e => .error (wrapError e ("Could not set peers for " ++ s.iface))
  | .ok _ => .ok ()

/-- Environment of `SetUpInterface`: the results of its external calls. -/
structure UpEnv where
  linkAdd : Except GoError Unit
  configureDevice : Config → Except GoError Unit
  linkByName : Except GoError Link
  addrReplace : Except GoError Unit
  linkSetMTU : Except GoError Unit
  linkSetUp : Except GoError Unit
  routeAdd : Except GoError Unit

/-- Source `State.SetUpInterface`: create the link, configure keys and port,
assign the overlay address, set the MTU, bring the link up; the RouteAdd
error is discarded by the source. -/
def State.SetUpInterface (s : State) (env : UpEnv) : Except GoError Unit :=
  match env.linkAdd with
  | .error e => .error (wrapError e ("Could not create interface " ++ s.iface))
  | .ok _ =>
    match env.configureDevice
        { PrivateKey := some s.privateKey,
          ListenPort := if s.port = 0 then none else some s.port } with
    | .error e => .error (wrapError e ("Could not set wireguard configuration for " ++ s.iface))
    | .ok _ =>
      match env.linkByName with
      | .error e => .error (wrapError e ("Could not get link information for " ++ s.iface))
      | .ok _ =>
        match env.addrReplace with
        | .error e => .error (wrapError e ("Could not set address for " ++ s.iface))
        | .ok _ =>
          match env.linkSetMTU with
          | .error e => .error (wrapError e ("Could not set MTU for " ++ s.iface))
          | .ok _ =>
            match env.linkSetUp with
            | .error e => .error (wrapError e ("Could not enable interface " ++ s.iface))
            | .ok _ =>
              let _ := env.routeAdd
              .ok ()

/-- State after `AddPeers`: the Go method assigns no field of its receiver,
so the resulting state is the input state. -/
def State.addPeersPost (s : State) (peers : List Peer) : State := s

/-- State after `DownInterface`: the Go method assigns no field of its
receiver. -/
def State.downInterfacePost (s : State) (env : DownEnv) : State := s

/-- State after `SetUpInterface`: the Go method assigns no field of its
receiver. -/
def State.setUpInterfacePost (s : State) (env : UpEnv) : State := s

/-- State after `GetPeers`: the Go method only reads the device, it assigns
no field of its receiver. -/
def State.getPeersPost (s : State) : State := s

/-- State after `GetOverlayAddress`: the Go method assigns no field of its
receiver. -/
def State.getOverlayAddressPost (s : State) (pubkey : Key) : State := s

/-! ### The client reconciliation step (`cmd/client/client.go`) -/

/-- Environment of one `updatePeers` attempt: the directory fetch result,
the control-plane collaborator, and the value of `rand.Int()` (always
non-negative in Go). -/
structure UpdateEnv where
  fetchPeers : Except GoError (List Peer)
  configureDevice : Config → Except GoError Unit
  randInt : Nat

/-- Source `updatePeers`: on fetch success stamp every record with the
preshared key and call `AddPeers` (whose error is logged and absorbed); in
every case hand back a fresh timer of `rand.Int()%20+20` seconds.  The first
component is the configuration submitted to the control plane together with
the absorbed submission result, or `none` when the fetch failed and nothing
was submitted; the second is the timer duration in seconds. -/
def updatePeers (s : State) (presharedKey : Key) (env : UpdateEnv) :
    Option (Config × Except GoError Unit) × Nat :=
  match env.fetchPeers with
  | .error _ => (none, env.randInt % 20 + 20)
  | .ok peers =>
    let stamped := peers.map (fun p => { p with PresharedKey := presharedKey })
    (some (s.addPeersConfig stamped, s.AddPeers env.configureDevice stamped),
     env.randInt % 20 + 20)

/-! ### Concrete inputs used by witnesses and counterexamples -/

/-- The all-zero 32-byte key (the zero `wgtypes.Key`, i.e. an absent secret). -/
def zeroKey : Key := List.replicate 32 0

/-- A key distinct from `zeroKey`. -/
def oneKey : Key := List.replicate 31 0 ++ [1]

/-- The overlay network 10.0.0.0/8. -/
def net10 : IPNet := ⟨[10, 0, 0, 0], cidrMask 8 32⟩

/-- A concrete local state on 10.0.0.0/8 whose identity is `zeroKey`. -/
def sBase : State :=
  { iface := "wg0", OverlayNetwork := net10, OverlayAddr := getOverlayAddr net10 zeroKey,
    port := 0, privateKey := zeroKey, PublicKey := zeroKey }

/-- A peer record carrying the local identity. -/
def peerSelf : Peer :=
  { IP := "", Port := 0, PublicKey := zeroKey, PresharedKey := zeroKey, KeepaliveInterval := 0 }

/-- A distinct peer record with a full endpoint. -/
def peerP : Peer :=
  { IP := "192.0.2.7", Port := 51820, PublicKey := oneKey, PresharedKey := zeroKey,
    KeepaliveInterval := 0 }

/-- A peer record with a nonzero port and a non-empty, unparseable address. -/
def peerBogus : Peer :=
  { IP := "bogus", Port := 1234, PublicKey := oneKey, PresharedKey := zeroKey,
    KeepaliveInterval := 0 }

/-- A key whose digest ends in byte 0x2A but not in 0x00 0x00 0x2A. -/
def kBad : Key := List.replicate 31 0 ++ [100]

/-- A key whose digest ends in the three bytes 0x00 0x00 0x2A. -/
def kGood : Key := List.replicate 29 0 ++ [202, 51, 93]

/-- A concrete failing fetch environment. -/
def envFetchFail : UpdateEnv :=
  { fetchPeers := .error {}, configureDevice := fun _ => .ok (), randInt := 7 }

/-- A concrete environment whose device query reports a missing device. -/
def envNotExist : DownEnv :=
  { device := .error { isNotExist := true }, linkByName := .ok ⟨0⟩, linkDel := .ok () }

/-- A concrete successful `New` environment. -/
def envNewOk : NewEnv := { wgctrlNew := .ok (), keyOfString := .ok zeroKey }

/-- The state `New` builds from `envNewOk` on 10.0.0.0/8 with the identity
function in place of the curve25519 derivation. -/
def sNew : State :=
  { iface := "wg0", privateKey := zeroKey, PublicKey := zeroKey,
    OverlayNetwork := net10, OverlayAddr := getOverlayAddr net10 zeroKey, port := 0 }

/-! ### Behaviour checks of the embedded library functions -/

example : sha256 [] =
    [227, 176, 196, 66, 152, 252, 28, 20, 154, 251, 244, 200, 153, 111, 185, 36,
     39, 174, 65, 228, 100, 155, 147, 76, 164, 149, 153, 27, 120, 82, 184, 85] := by decide

example : sha256 [97, 98, 99] =
    [186, 120, 22, 191, 143, 1, 207, 234, 65, 65, 64, 222, 93, 174, 34, 35,
     176, 3, 97, 163, 150, 23, 122, 156, 180, 16, 255, 97, 242, 0, 21, 173] := by decide

example : parseIP ("1.2.3.4") = some [0, 0, 0, 0, 0, 0, 0, 0, 0, 0, 255, 255, 1, 2, 3, 4] := by decide

example : parseIP ("256.1.1.1") = none := by decide

example : parseIP ("01.1.1.1") = none := by decide

example : parseIP ("bogus") = none := by decide

example : parseIP ("") = none := by decide

example : parseIP ("::1") = some [0, 0, 0, 0, 0, 0, 0, 0, 0, 0, 0, 0, 0, 0, 0, 1] := by decide

example : parseIP ("1::") = some [0, 1, 0, 0, 0, 0, 0, 0, 0, 0, 0, 0, 0, 0, 0, 0] := by decide

example : parseIP ("2001:db8::ff00:42:8329") =
    some [0x20, 0x01, 0x0d, 0xb8, 0, 0, 0, 0, 0, 0, 0xff, 0, 0, 0x42, 0x83, 0x29] := by decide

example : parseIP ("::ffff:10.0.0.1") = some [0, 0, 0, 0, 0, 0, 0, 0, 0, 0, 255, 255, 10, 0, 0, 1] := by decide

example : parseIP ("1:2") = none := by decide

/-! ### Helper lemmas -/

theorem toPeerConfig_PublicKey (p : Peer) (net : IPNet) :
    (p.toPeerConfig net).PublicKey = p.PublicKey := by
  simp only [Peer.toPeerConfig]
  split <;> split <;> rfl

theorem toPeerConfig_PresharedKey (p : Peer) (net : IPNet) :
    (p.toPeerConfig net).PresharedKey = some p.PresharedKey := by
  simp only [Peer.toPeerConfig]
  split <;> split <;> rfl

theorem toPeerConfig_Endpoint_pos (p : Peer) (net : IPNet) (h : p.Port ≠ 0 ∧ p.IP ≠ "") :
    (p.toPeerConfig net).Endpoint = some { IP := parseIP p.IP, Port := p.Port } := by
  simp only [Peer.toPeerConfig, if_pos h]
  split <;> rfl

theorem toPeerConfig_Endpoint_neg (p : Peer) (net : IPNet) (h : ¬(p.Port ≠ 0 ∧ p.IP ≠ "")) :
    (p.toPeerConfig net).Endpoint = none := by
  simp only [Peer.toPeerConfig, if_neg h]
  split <;> rfl

theorem addPeersLoop_excludes (s : State) (peers : List Peer) :
    ∀ c ∈ addPeersLoop s peers, c.PublicKey ≠ s.PublicKey := by
  induction peers with
  | nil => intro c hc; simp [addPeersLoop] at hc
  | cons p rest ih =>
    intro c hc
    simp only [addPeersLoop] at hc
    split at hc
    · rcases List.mem_cons.mp hc with h | h
      · subst h; rw [toPeerConfig_PublicKey]; assumption
      · exact ih c h
    · exact ih c hc

/-- The digest is always 32 bytes. -/
theorem sha256_length (msg : Bytes) : (sha256 msg).length = 32 := by
  simp [sha256, word2bytes]

/-- Extract one digest byte from the `drop 29` hypothesis. -/
theorem digest_tail_byte (hb : Bytes) (hlen : hb.length = 32) (j : Nat)
    (hdrop : hb.drop 29 = [0, 0, 42]) (hj : j < 3) :
    hb.getD (29 + j) 0 = [0, 0, 42].getD j 0 := by
  have := List.getElem?_drop hb 29 j
  rw [hdrop] at this
  simp only [List.getD_eq_getElem?_getD]
  rw [← this]

theorem cidrMaskLoop_length (n l : Nat) : (cidrMaskLoop n l).length = l := by
  induction l generalizing n with
  | zero => rfl
  | succ l ih => simp only [cidrMaskLoop]; split <;> simp [ih]

theorem cidrMaskLoop_zero (l : Nat) : cidrMaskLoop 0 l = List.replicate l 0 := by
  induction l with
  | zero => rfl
  | succ l ih =>
    simp [cidrMaskLoop, ih, List.replicate_succ, show maskByteOnes 0 = 0 from rfl]

theorem replicate_zero_all (l : Nat) :
    (List.replicate l (0 : Nat)).all (fun x => x == 0) = true := by
  simp [List.all_eq_true, List.mem_replicate]

theorem maskByteOnes_ne_255 (n : Nat) (h : n < 8) : maskByteOnes n ≠ 255 := by
  interval_cases n <;> decide

theorem leadingOnes8_maskByteOnes (n : Nat) (h : n < 8) :
    leadingOnes8 (maskByteOnes n) = some n := by
  interval_cases n <;> decide

theorem simpleMaskLength_cidrMaskLoop (l : Nat) : ∀ n, n ≤ 8 * l →
    simpleMaskLength (cidrMaskLoop n l) = some n := by
  induction l with
  | zero => intro n hn; interval_cases n; rfl
  | succ l ih =>
    intro n hn
    by_cases h8 : 8 ≤ n
    · simp only [cidrMaskLoop, if_pos h8, simpleMaskLength, if_pos rfl]
      rw [ih (n - 8) (by omega)]
      have heq : n - 8 + 8 = n := by omega
      simp [heq]
    · push_neg at h8
      simp only [cidrMaskLoop, if_neg (by omega : ¬ 8 ≤ n), simpleMaskLength,
        if_neg (maskByteOnes_ne_255 n h8), leadingOnes8_maskByteOnes n h8]
      rw [cidrMaskLoop_zero, replicate_zero_all]
      simp

theorem cidrMask_eq_loop (ones len : Nat) (hlen : len = 4 ∨ len = 16) (h : ones ≤ 8 * len) :
    cidrMask ones (8 * len) = cidrMaskLoop ones len := by
  unfold cidrMask
  rw [if_neg (by rcases hlen with h4 | h4 <;> simp [h4]), if_neg (by omega)]
  congr 1
  omega

theorem maskSize_cidrMask (len bits : Nat) (hlen : len = 4 ∨ len = 16)
    (hbits : bits ≤ 8 * len) :
    maskSize (cidrMask bits (8 * len)) = (bits, 8 * len) := by
  rw [cidrMask_eq_loop bits len hlen hbits]
  unfold maskSize
  rw [simpleMaskLength_cidrMaskLoop len bits hbits]
  simp [cidrMaskLoop_length]

theorem cidrMaskLoop_getD_zero (l : Nat) : ∀ j n, n ≤ 8 * j →
    (cidrMaskLoop n l).getD j 0 = 0 := by
  induction l with
  | zero => intro j n h; rfl
  | succ l ih =>
    intro j n h
    match j with
    | 0 =>
      have hn : n = 0 := by omega
      subst hn
      simp [cidrMaskLoop, show maskByteOnes 0 = 0 from rfl]
    | j + 1 =>
      simp only [cidrMaskLoop]
      split
      · simpa using ih j (n - 8) (by omega)
      · simpa using ih j 0 (by omega)

theorem copyHashTail_length (ip hb : Bytes) (c : Nat) :
    (copyHashTail ip hb c).length = ip.length := by
  induction c with
  | zero => rfl
  | succ c ih => simp [copyHashTail, ih]

theorem copyHashTail_getD_low (ip hb : Bytes) (c j : Nat) (h : j + c < ip.length) :
    (copyHashTail ip hb c).getD j 0 = ip.getD j 0 := by
  induction c with
  | zero => rfl
  | succ c ih =>
    simp only [copyHashTail]
    rw [List.getD_eq_getElem?_getD, List.getElem?_set_ne (by omega),
      ← List.getD_eq_getElem?_getD]
    exact ih (by omega)

/-! ### The claims -/

/-- C1: `AddPeers` never includes in the submitted configuration a peer
config whose public key equals the local node's own public key; for a list
of two records, one with the local identity and one a distinct peer, the
submitted configuration holds exactly the one config of the distinct peer
(in either list order). -/
theorem addPeers_excludes_self (s : State) (peers : List Peer) :
    (∀ c ∈ (s.addPeersConfig peers).Peers, c.PublicKey ≠ s.PublicKey) ∧
    (∀ p1 p2 : Peer, p1.PublicKey = s.PublicKey → p2.PublicKey ≠ s.PublicKey →
      (s.addPeersConfig [p1, p2]).Peers = [p2.toPeerConfig s.OverlayNetwork] ∧
      (s.addPeersConfig [p2, p1]).Peers = [p2.toPeerConfig s.OverlayNetwork]) := by
  refine ⟨addPeersLoop_excludes s peers, fun p1 p2 h1 h2 => ?_⟩
  constructor <;> simp [State.addPeersConfig, addPeersLoop, h1, h2]

/-- Witness for C1 at a concrete state and two concrete records. -/
theorem addPeers_excludes_self_witness :
    (sBase.addPeersConfig [peerSelf, peerP]).Peers = [peerP.toPeerConfig sBase.OverlayNetwork] :=
  ((addPeers_excludes_self sBase [peerSelf, peerP]).2 peerSelf peerP rfl (by decide)).1

/-- C2: when the directory fetch fails, `updatePeers` submits nothing to the
control plane that cycle; and in every case (fetch and submission success or
failure) it yields a next delay of at least 20 and less than 40 seconds. -/
theorem updatePeers_fetch_failure_delay (s : State) (k : Key) (env : UpdateEnv) :
    (∀ e, env.fetchPeers = .error e → (updatePeers s k env).1 = none) ∧
    20 ≤ (updatePeers s k env).2 ∧ (updatePeers s k env).2 < 40 := by
  refine ⟨fun e he => ?_, ?_⟩
  · simp [updatePeers, he]
  · rcases h : env.fetchPeers with e | peers <;> simp [updatePeers, h] <;> omega

/-- Witness for C2 on a concrete failing fetch. -/
theorem updatePeers_fetch_failure_delay_witness :
    (updatePeers sBase zeroKey envFetchFail).1 = none ∧
    20 ≤ (updatePeers sBase zeroKey envFetchFail).2 ∧
    (updatePeers sBase zeroKey envFetchFail).2 < 40 :=
  ⟨(updatePeers_fetch_failure_delay sBase zeroKey envFetchFail).1 {} rfl,
   (updatePeers_fetch_failure_delay sBase zeroKey envFetchFail).2⟩

/-- C3: for a prefix given as a 4- or 16-byte base address with a prefix
length, the derived address has the full-length mask (all ones) and agrees
with the base under the prefix's mask on every byte (so it lies within the
prefix's range). -/
theorem getOverlayAddr_in_range (base : Bytes) (bits : Nat) (K : Key)
    (hlen : base.length = 4 ∨ base.length = 16) (hbits : bits ≤ 8 * base.length) :
    (getOverlayAddr ⟨base, cidrMask bits (8 * base.length)⟩ K).mask
      = List.replicate base.length 255 ∧
    (getOverlayAddr ⟨base, cidrMask bits (8 * base.length)⟩ K).ip.length = base.length ∧
    ∀ j, (getOverlayAddr ⟨base, cidrMask bits (8 * base.length)⟩ K).ip.getD j 0 &&&
          (cidrMask bits (8 * base.length)).getD j 0
        = base.getD j 0 &&& (cidrMask bits (8 * base.length)).getD j 0 := by
  have hms := maskSize_cidrMask base.length bits hlen hbits
  have hga : getOverlayAddr ⟨base, cidrMask bits (8 * base.length)⟩ K
      = ⟨copyHashTail base (sha256 K) ((8 * base.length - bits) / 8),
         cidrMask (8 * base.length) (8 * base.length)⟩ := by
    simp [getOverlayAddr, hms]
  rw [hga]
  refine ⟨?_, copyHashTail_length base (sha256 K) _, ?_⟩
  · rcases hlen with h | h <;> rw [h]
    · show cidrMask (8 * 4) (8 * 4) = List.replicate 4 255
      decide
    · show cidrMask (8 * 16) (8 * 16) = List.replicate 16 255
      decide
  · intro j
    by_cases hj : j + (8 * base.length - bits) / 8 < base.length
    · rw [copyHashTail_getD_low base (sha256 K) _ j hj]
    · have hdm := Nat.div_mul_le_self (8 * base.length - bits) 8
      have h8 : bits ≤ 8 * j := by omega
      have hmask0 : (cidrMask bits (8 * base.length)).getD j 0 = 0 := by
        rw [cidrMask_eq_loop bits base.length hlen hbits]
        exact cidrMaskLoop_getD_zero base.length j bits h8
      rw [hmask0, Nat.and_zero, Nat.and_zero]

/-- Witness for C3 on the prefix 10.0.0.0/8 and the key `zeroKey`. -/
theorem getOverlayAddr_in_range_witness :
    (getOverlayAddr ⟨[10, 0, 0, 0], cidrMask 8 (8 * ([10, 0, 0, 0] : Bytes).length)⟩
        zeroKey).mask = List.replicate ([10, 0, 0, 0] : Bytes).length 255 :=
  (getOverlayAddr_in_range [10, 0, 0, 0] 8 zeroKey (Or.inl rfl) (by decide)).1

/-- C4 counterexample: `kBad`'s digest ends in byte 0x2A, yet the derived
address for 10.0.0.0/8 is 10.4.39.42/32, not 10.0.0.42/32 — the code
replaces the last three bytes of a /8 base address, not only the last one. -/
theorem overlay_hash_tail_counterexample :
    (sha256 kBad).getD 31 0 = 42 ∧
    getOverlayAddr ⟨[10, 0, 0, 0], cidrMask 8 32⟩ kBad = ⟨[10, 4, 39, 42], [255, 255, 255, 255]⟩ ∧
    getOverlayAddr ⟨[10, 0, 0, 0], cidrMask 8 32⟩ kBad ≠ ⟨[10, 0, 0, 42], [255, 255, 255, 255]⟩ :=
  ⟨by decide, by decide, by decide⟩

/-- C4 amended: for the prefix 10.0.0.0/8 and any identity whose SHA-256
digest ends in the three bytes 0x00 0x00 0x2A, the derived address is
exactly 10.0.0.42/32: the last three (host) bytes are replaced by the hash
tail and the mask is forced to /32. -/
theorem getOverlayAddr_hash_tail3 (K : Key) (hdrop : (sha256 K).drop 29 = [0, 0, 42]) :
    getOverlayAddr ⟨[10, 0, 0, 0], cidrMask 8 32⟩ K = ⟨[10, 0, 0, 42], [255, 255, 255, 255]⟩ := by
  have hlen : (sha256 K).length = 32 := sha256_length K
  have h29 := digest_tail_byte (sha256 K) hlen 0 hdrop (by omega)
  have h30 := digest_tail_byte (sha256 K) hlen 1 hdrop (by omega)
  have h31 := digest_tail_byte (sha256 K) hlen 2 hdrop (by omega)
  have hstep : getOverlayAddr ⟨[10, 0, 0, 0], cidrMask 8 32⟩ K
      = ⟨copyHashTail [10, 0, 0, 0] (sha256 K) 3, cidrMask 32 32⟩ := rfl
  have hct : copyHashTail [10, 0, 0, 0] (sha256 K) 3
      = (([10, 0, 0, 0].set 3 ((sha256 K).getD 31 0)).set 2
          ((sha256 K).getD 30 0)).set 1 ((sha256 K).getD 29 0) := by
    simp [copyHashTail, hlen]
  rw [hstep, hct]
  norm_num at h29 h30 h31
  simp only [List.getD_eq_getElem?_getD]
  rw [h29, h30, h31]
  decide

/-- Witness for the amended C4 at the concrete key `kGood`. -/
theorem getOverlayAddr_hash_tail3_witness :
    (sha256 kGood).drop 29 = [0, 0, 42] ∧
    getOverlayAddr ⟨[10, 0, 0, 0], cidrMask 8 32⟩ kGood
      = ⟨[10, 0, 0, 42], [255, 255, 255, 255]⟩ :=
  ⟨by decide, getOverlayAddr_hash_tail3 kGood (by decide)⟩

/-- C5 counterexample: a record whose preshared key is the zero value (no
secret present) still yields a config with the preshared-key field set — the
source sets `PresharedKey: &p.PresharedKey` unconditionally, so the claimed
"no shared secret set" case never occurs. -/
theorem presharedKey_zero_counterexample :
    (peerSelf.toPeerConfig net10).PresharedKey = some zeroKey ∧
    (peerSelf.toPeerConfig net10).PresharedKey ≠ none := by
  constructor <;> decide

/-- C5 amended: `toPeerConfig` always sets the preshared-key field of the
update to the record's preshared key, the zero (absent) secret included. -/
theorem toPeerConfig_presharedKey_always (p : Peer) (net : IPNet) :
    (p.toPeerConfig net).PresharedKey = some p.PresharedKey := by
  simp only [Peer.toPeerConfig]
  split <;> split <;> rfl

/-- C6: `toPeerConfig` omits the endpoint exactly when the record's port is
0 or its address string is empty, and otherwise includes the endpoint built
from the record's address and port. -/
theorem toPeerConfig_endpoint_iff (p : Peer) (net : IPNet) :
    ((p.Port = 0 ∨ p.IP = "") → (p.toPeerConfig net).Endpoint = none) ∧
    (p.Port ≠ 0 → p.IP ≠ "" →
      (p.toPeerConfig net).Endpoint = some { IP := parseIP p.IP, Port := p.Port }) := by
  constructor
  · intro h
    refine toPeerConfig_Endpoint_neg p net ?_
    rcases h with h | h <;> simp [h]
  · exact fun h1 h2 => toPeerConfig_Endpoint_pos p net ⟨h1, h2⟩

/-- Witness for C6: endpoint included for a full record, omitted for an
endpoint-less record. -/
theorem toPeerConfig_endpoint_iff_witness :
    (peerP.toPeerConfig net10).Endpoint = some { IP := parseIP ("192.0.2.7"), Port := 51820 } ∧
    (peerSelf.toPeerConfig net10).Endpoint = none :=
  ⟨(toPeerConfig_endpoint_iff peerP net10).2 (by decide) (by decide),
   (toPeerConfig_endpoint_iff peerSelf net10).1 (Or.inl rfl)⟩

/-- C7: the configuration `AddPeers` submits never asks for a destructive
replace: its replace-peers flag is unset (the Go zero value), so the merge is
an upsert keyed by identity. -/
theorem addPeers_no_replace (s : State) (peers : List Peer) :
    (s.addPeersConfig peers).ReplacePeers = false := rfl

/-- C8: when the control-plane device query fails with an error satisfying
`os.IsNotExist`, `DownInterface` returns success and never issues a link
deletion. -/
theorem downInterface_absent_ok (s : State) (env : DownEnv) (e : GoError)
    (hdev : env.device = .error e) (hne : e.isNotExist = true) :
    (s.DownInterface env).1 = .ok () ∧
    ∀ l, NetAction.linkDel l ∉ (s.DownInterface env).2 := by
  simp [State.DownInterface, hdev, hne]

/-- Witness for C8 on a concrete missing-device environment. -/
theorem downInterface_absent_ok_witness :
    (sBase.DownInterface envNotExist).1 = .ok () :=
  (downInterface_absent_ok sBase envNotExist { isNotExist := true } rfl rfl).1

/-- C9: a record with a nonzero port and a non-empty but unparseable address
string still gets an endpoint, whose IP is nil (`none`): the failed parse is
not rejected. -/
theorem toPeerConfig_unparseable_endpoint (p : Peer) (net : IPNet)
    (hport : p.Port ≠ 0) (hip : p.IP ≠ "") (hparse : parseIP p.IP = none) :
    (p.toPeerConfig net).Endpoint = some { IP := none, Port := p.Port } := by
  rw [toPeerConfig_Endpoint_pos p net ⟨hport, hip⟩, hparse]

/-- Witness for C9 on the concrete unparseable address "bogus". -/
theorem toPeerConfig_unparseable_endpoint_witness :
    (peerBogus.toPeerConfig net10).Endpoint = some { IP := none, Port := 1234 } :=
  toPeerConfig_unparseable_endpoint peerBogus net10 (by decide) (by decide) (by decide)

/-- C10: a state built by a successful `New` stores the overlay network it
was given and an overlay address equal to `getOverlayAddr` of that network
at its own public key (itself derived from the parsed private key);
`GetOverlayAddress` is exactly `getOverlayAddr` of the stored network; and
no operation on the state changes the stored network or address (the Go
methods assign no receiver field). -/
theorem new_state_overlay_invariant (publicKeyOf : Key → Key) (env : NewEnv)
    (iface : String) (port : Int) (net : IPNet) (s : State)
    (h : New publicKeyOf env iface port net = .ok s) :
    s.OverlayNetwork = net ∧
    s.OverlayAddr = getOverlayAddr net s.PublicKey ∧
    (∀ pk, env.keyOfString = .ok pk → s.PublicKey = publicKeyOf pk) ∧
    (∀ k, s.GetOverlayAddress k = getOverlayAddr s.OverlayNetwork k) ∧
    (∀ peers, (s.addPeersPost peers).OverlayNetwork = s.OverlayNetwork ∧
      (s.addPeersPost peers).OverlayAddr = s.OverlayAddr) ∧
    (∀ env2, (s.downInterfacePost env2).OverlayNetwork = s.OverlayNetwork ∧
      (s.downInterfacePost env2).OverlayAddr = s.OverlayAddr) ∧
    (∀ env3, (s.setUpInterfacePost env3).OverlayNetwork = s.OverlayNetwork ∧
      (s.setUpInterfacePost env3).OverlayAddr = s.OverlayAddr) ∧
    (s.getPeersPost.OverlayNetwork = s.OverlayNetwork ∧
      s.getPeersPost.OverlayAddr = s.OverlayAddr) ∧
    (∀ k, (s.getOverlayAddressPost k).OverlayNetwork = s.OverlayNetwork ∧
      (s.getOverlayAddressPost k).OverlayAddr = s.OverlayAddr) := by
  rcases hw : env.wgctrlNew with e | u
  · simp [New, hw] at h
  · rcases hk : env.keyOfString with e | pk
    · simp [New, hw, hk] at h
    · simp only [New, hw, hk] at h
      cases h
      refine ⟨rfl, rfl, ?_, fun k => rfl, fun peers => ⟨rfl, rfl⟩, fun env2 => ⟨rfl, rfl⟩,
        fun env3 => ⟨rfl, rfl⟩, ⟨rfl, rfl⟩, fun k => ⟨rfl, rfl⟩⟩
      intro pk2 hk2
      cases hk2
      rfl

/-- Witness for C10 at a concrete successful construction. -/
theorem new_state_overlay_invariant_witness :
    sNew.OverlayNetwork = net10 ∧ sNew.OverlayAddr = getOverlayAddr net10 sNew.PublicKey :=
  ⟨(new_state_overlay_invariant id envNewOk ("wg0") 0 net10 sNew rfl).1,
   (new_state_overlay_invariant id envNewOk ("wg0") 0 net10 sNew rfl).2.1⟩
